import Mathlib

/-!
Shallow embedding of the parametric FEA sweep engine of
`FreecadParametricFEA` (files `parametric.py` and `freecadmodel.py`).

Constraint values, reduced outputs and table cells are modelled as
integers (`Value`); the sweep engine treats them as opaque scalars and
never inspects them, so this instantiation is faithful for the
properties below.  The pandas `DataFrame` is modelled as a list of
rows; a row keeps its parameter columns and output columns as
association lists with pandas' column-assignment semantics
(assigning to an existing column overwrites it in place, assigning to
a fresh column appends it).  Exceptions are modelled with `Except`:
recoverable error classes caught by `run_parametric` (`ValueError`
from `change_parameter`, `RuntimeError` from `run_fea`) are explicit
constructors of the adapter result types, anything else propagates as
`Except.error`.  Calls to the external FreeCAD adapter are recorded in
an event trace.
-/

namespace FreecadParametricFEA

/-- Table cells / constraint values (opaque scalars for the engine). -/
abbrev Value := Int

/-- One entry of `parametric.variables` (see `set_variables`). -/
structure Variable where
  object_name : String
  constraint_name : String
  constraint_values : List Value
deriving DecidableEq

/-- One entry of `parametric.outputs` (see `set_outputs`).
`reduction_qualname` models the Python function's `__qualname__`,
used when no `column_label` is given. -/
structure Output where
  output_var : String
  reduction_fun : List Value → Value
  reduction_qualname : String
  column_label : Option String

/-- `parametric._param_to_df_heading`: `f"{object_name}.{constraint_name}"`. -/
def param_to_df_heading (p : Variable) : String :=
  p.object_name ++ "." ++ p.constraint_name

/-- `parametric._output_to_df_heading`: `column_label` if present, else the
reduction function's `__qualname__`, then `f"{col_name}({output_var})"`. -/
def output_to_df_heading (o : Output) : String :=
  (match o.column_label with
   | some l => l
   | none => o.reduction_qualname) ++ "(" ++ o.output_var ++ ")"

/-- Pandas column assignment `df[key] = v` restricted to one row:
overwrite the column if it exists, append it otherwise. -/
def setCol (cols : List (String × Value)) (key : String) (v : Value) :
    List (String × Value) :=
  if cols.any (fun p => p.1 = key) then
    cols.map (fun p => if p.1 = key then (key, v) else p)
  else cols ++ [(key, v)]

/-- Reading a cell `row[key]` from a row's association list. -/
def getCol (cols : List (String × Value)) (key : String) : Value :=
  ((cols.find? (fun p => p.1 = key)).map Prod.snd).getD 0

/-- One row of the results `DataFrame`.  `params` are the variable
columns, `outputs` the output columns, `msg` the `Msg` column and
`runtime` the `FEA_Runtime` column. -/
structure Row where
  params : List (String × Value)
  outputs : List (String × Value)
  msg : String
  runtime : Nat
deriving DecidableEq

/-- Enumeration of all multi-indices of a shape in C (row-major) order,
the order in which `numpy.ravel` flattens an array: the last axis
varies fastest. -/
def cOrderIndices : List Nat → List (List Nat)
  | [] => [[]]
  | m :: ms => (List.range m).flatMap (fun i => (cOrderIndices ms).map (fun t => i :: t))

/-- `numpy.meshgrid` with the default `indexing='xy'` swaps the first
two axes of the output shape. -/
def swapFirstTwo {α : Type} : List α → List α
  | a :: b :: rest => b :: a :: rest
  | l => l

/-- `np.meshgrid(*param_vals)` followed by `ravel` of each grid array,
read off row by row: row `i` assigns to variable `j` the value
`param_vals[j][idx_j]` where the multi-indices run over the meshgrid
shape `(n2, n1, n3, …, nk)` in C order.  With no variables there are
no grid columns and the data frame keeps zero rows. -/
def meshgridRavel (vals : List (List Value)) : List (List Value) :=
  match vals with
  | [] => []
  | _ :: _ =>
    (cOrderIndices (swapFirstTwo (vals.map List.length))).map
      (fun t => List.zipWith (fun l i => l.getD i 0) vals (swapFirstTwo t))

/-- The output columns as first created (`df[column] = 0` for each
derived output heading, in declaration order). -/
def placeholder_outputs (outputs : List Output) : List (String × Value) :=
  (outputs.map output_to_df_heading).foldl (fun c h => setCol c h 0) []

/-- `parametric.populate_test_dataframe`: one row per meshgrid point,
parameter columns holding the grid values, output columns at the
placeholder `0`, `Msg` empty and `FEA_Runtime` zero. -/
def populate_test_dataframe (vars : List Variable) (outputs : List Output) :
    List Row :=
  let param_headings := vars.map param_to_df_heading
  (meshgridRavel (vars.map Variable.constraint_values)).map fun vs =>
    { params := (param_headings.zip vs).foldl (fun c hv => setCol c hv.1 hv.2) []
      outputs := placeholder_outputs outputs
      msg := ""
      runtime := 0 }

theorem cOrderIndices_length (ms : List Nat) :
    (cOrderIndices ms).length = ms.prod := by
  induction ms with
  | nil => rfl
  | cons m ms ih =>
    simp only [cOrderIndices, List.length_flatMap, ih, List.prod_cons,
      Function.comp_def, List.length_map]
    simp [List.map_const, List.sum_replicate, Nat.mul_comm]

theorem swapFirstTwo_prod (l : List Nat) : (swapFirstTwo l).prod = l.prod := by
  match l with
  | [] => rfl
  | [a] => rfl
  | a :: b :: rest =>
    simp [swapFirstTwo, List.prod_cons]
    ring

theorem meshgridRavel_length (vals : List (List Value)) (h : vals ≠ []) :
    (meshgridRavel vals).length = (vals.map List.length).prod := by
  match vals, h with
  | v :: vs, _ =>
    simp [meshgridRavel, List.length_map, cOrderIndices_length, swapFirstTwo_prod]

/-- Outcome of `FreecadModel.change_parameter` as observed by
`run_parametric`: success, a `ValueError` (the only class caught at
the variable loop, lines 161-170 of `parametric.py`), or any other
exception (`KeyError`, `NameError`, `IndexError`, …), which
propagates. -/
inductive ChangeResult where
  | ok
  | valueError (msg : String)
  | fatal (msg : String)
deriving DecidableEq

/-- The FEA results object returned by `run_fea`; `run_parametric`
only calls `getPropertyByName` on it, which yields the per-node
numeric array for an output variable. -/
structure ResultsObj where
  getPropertyByName : String → List Value

/-- Outcome of `FreecadModel.run_fea`: a results object, a
`RuntimeError` (the only class caught around the solve block, line 219
of `parametric.py`, e.g. "FEA results are not present"), or any other
exception, which propagates. -/
inductive SolveOutcome where
  | ok (results : ResultsObj)
  | runtimeError (msg : String)
  | fatal (msg : String)

/-- The parameter state of the open FreeCAD document: the values most
recently written by successful `change_parameter` calls, keyed by
(object name, constraint name). -/
abbrev DocState := List ((String × String) × Value)

/-- A successful `change_parameter` stores the value on the document. -/
def setParamState (s : DocState) (obj cons : String) (v : Value) : DocState :=
  if s.any (fun p => p.1 = (obj, cons)) then
    s.map (fun p => if p.1 = (obj, cons) then ((obj, cons), v) else p)
  else s ++ [((obj, cons), v)]

/-- The external FreeCAD adapter (`FreecadModel`): the document path
and the behaviour of its two fallible operations.  `run_fea` may
depend on the current parameter state of the document. -/
structure FreecadModel where
  filename : String
  change_parameter : String → String → Value → ChangeResult
  run_fea : DocState → SolveOutcome

/-- Calls made to the adapter, recorded in program order. -/
inductive Event where
  | change (object_name constraint_name : String) (value : Value)
  | solve
  | exportResult (filename : String)
deriving DecidableEq

/-- `os.path.split` (posix): split at the last `/`; the head keeps no
trailing slashes unless it is all slashes. -/
def posix_split (p : String) : String × String :=
  let cs := p.toList
  let tail := (cs.reverse.takeWhile (fun c => c ≠ '/')).reverse
  let head := cs.take (cs.length - tail.length)
  let head := if head ≠ [] ∧ head.any (fun c => c ≠ '/') then
    (head.reverse.dropWhile (fun c => c = '/')).reverse else head
  (String.mk head, String.mk tail)

/-- The root part of `os.path.splitext` on a bare file name (no
separators): drop the last extension, where leading dots do not start
an extension. -/
def posix_splitext_root (p : String) : String :=
  let cs := p.toList
  let ext := cs.reverse.takeWhile (fun c => c ≠ '.')
  if ext.length = cs.length then p
  else
    let stem := cs.take (cs.length - ext.length - 1)
    if stem.any (fun c => c ≠ '.') then String.mk stem else p

/-- `os.path.join` (posix) for the two-argument case used here. -/
def posix_join (a b : String) : String :=
  if b.toList.head? = some '/' then b
  else if a = "" ∨ a.toList.getLast? = some '/' then a ++ b
  else a ++ "/" ++ b

/-- Left-pad a decimal string with zeros, as Python's
`f"{idx:0{n}}"` does for a non-negative integer. -/
def zfill (s : String) (n : Nat) : String :=
  String.mk (List.replicate (n - s.length) '0') ++ s

/-- Fuel-based ceiling base-10 logarithm,
`int(np.ceil(np.log10(m)))` for `m ≥ 1` (exact arithmetic). -/
def ceil_log10_aux : Nat → Nat → Nat
  | 0, _ => 0
  | fuel + 1, m => if m ≤ 1 then 0 else ceil_log10_aux fuel ((m + 9) / 10) + 1

/-- `n = int(np.ceil(np.log10(len(self.results_dataframe) + 1)))`
(line 206 of `parametric.py`): the number of digits used for the
export file index. -/
def num_digits_pad (rowCount : Nat) : Nat :=
  ceil_log10_aux rowCount (rowCount + 1)

/-- The per-case export file name
`path.join(folder, f"FEA_{fn}_{test_case_idx:0{n}}.vtu")` where
`(folder, filename) = path.split(self.freecad_document.filename)`,
`(fn, _) = path.splitext(filename)` and `folder` is replaced by
`output_folder` when the latter is nonempty. -/
def export_filename (doc_filename output_folder : String) (rowCount idx : Nat) :
    String :=
  let folder0 := (posix_split doc_filename).1
  let fn := posix_splitext_root (posix_split doc_filename).2
  let folder := if output_folder ≠ "" then output_folder else folder0
  posix_join folder
    ("FEA_" ++ fn ++ "_" ++ zfill (toString idx) (num_digits_pad rowCount) ++ ".vtu")

/-- `np.max` (`__qualname__` = `amax`) on an integer array; the empty
case (where numpy raises) is given an arbitrary value, it is never
reached by the claims below. -/
def np_amax (l : List Value) : Value :=
  match l with
  | [] => 0
  | x :: xs => xs.foldl max x

/-- The default outputs installed by `set_outputs()` with no argument:
`np.max` of `vonMises` and of `DisplacementLengths`. -/
def default_outputs : List Output :=
  [ { output_var := "vonMises", reduction_fun := np_amax,
      reduction_qualname := "amax", column_label := none },
    { output_var := "DisplacementLengths", reduction_fun := np_amax,
      reduction_qualname := "amax", column_label := none } ]

/-- The inner variable loop of `run_parametric` (lines 158-170): for
each declared variable, read this row's value from its derived column
and call `change_parameter`; a `ValueError` is written into the row's
`Msg` and the loop continues, any other exception propagates. -/
def apply_variables (model : FreecadModel) :
    List Variable → DocState → Row → List Event →
    Except String (DocState × Row × List Event)
  | [], doc, row, evs => .ok (doc, row, evs)
  | p :: ps, doc, row, evs =>
    let v := getCol row.params (param_to_df_heading p)
    let evs := evs ++ [Event.change p.object_name p.constraint_name v]
    match model.change_parameter p.object_name p.constraint_name v with
    | ChangeResult.ok =>
      apply_variables model ps (setParamState doc p.object_name p.constraint_name v) row evs
    | ChangeResult.valueError m =>
      apply_variables model ps doc { row with msg := m } evs
    | ChangeResult.fatal m => .error m

/-- Writing the reduced outputs into a row after a successful solve
(lines 183-190): `df.loc[idx, heading] = reduction_fun(results.getPropertyByName(var))`
for each output, in order. -/
def write_outputs (outputs : List Output) (r : ResultsObj)
    (cols : List (String × Value)) : List (String × Value) :=
  outputs.foldl
    (fun c o => setCol c (output_to_df_heading o)
      (o.reduction_fun (r.getPropertyByName o.output_var)))
    cols

/-- The fully-written output columns of a successful row: the write
pass of `run_parametric` applied to the freshly populated placeholder
columns (including the `if self.outputs == []: self.set_outputs()`
fallback of lines 181-182). -/
def apply_outputs (outputs : List Output) (r : ResultsObj) : List (String × Value) :=
  write_outputs (if outputs.isEmpty then default_outputs else outputs) r
    (placeholder_outputs outputs)

/-- The body of the test-case loop of `run_parametric` (lines
156-225) for one row: apply every variable, then (unless `dry_run`)
run the FEA; on success write all reduced outputs and `FEA_Runtime`
and optionally request the VTK export; on a `RuntimeError` write the
message into `Msg`; other exceptions propagate. -/
def run_case (model : FreecadModel) (vars : List Variable) (outputs : List Output)
    (dry_run export_results : Bool) (output_folder : String)
    (rowCount : Nat) (timer : Nat → Nat) (idx : Nat) (doc : DocState) (row : Row)
    (evs : List Event) : Except String (DocState × Row × List Event) :=
  match apply_variables model vars doc row evs with
  | .error m => .error m
  | .ok (doc, row, evs) =>
    if dry_run then .ok (doc, row, evs)
    else
      let evs := evs ++ [Event.solve]
      match model.run_fea doc with
      | SolveOutcome.ok results =>
        let outs := if outputs.isEmpty then default_outputs else outputs
        let row := { row with outputs := write_outputs outs results row.outputs }
        let row := { row with runtime := timer idx }
        if export_results then
          let fname := export_filename model.filename output_folder rowCount idx
          .ok (doc, row, evs ++ [Event.exportResult fname])
        else .ok (doc, row, evs)
      | SolveOutcome.runtimeError m => .ok (doc, { row with msg := m }, evs)
      | SolveOutcome.fatal m => .error m

/-- The test-case loop of `run_parametric`: process the remaining
rows in order, threading the document state and the event trace. -/
def run_rows (model : FreecadModel) (vars : List Variable) (outputs : List Output)
    (dry_run export_results : Bool) (output_folder : String)
    (rowCount : Nat) (timer : Nat → Nat) :
    List Row → Nat → DocState → List Event →
    Except String (List Row × List Event)
  | [], _, _, evs => .ok ([], evs)
  | row :: rest, idx, doc, evs =>
    match run_case model vars outputs dry_run export_results output_folder
        rowCount timer idx doc row evs with
    | .error m => .error m
    | .ok (doc, row, evs) =>
      match run_rows model vars outputs dry_run export_results output_folder
          rowCount timer rest (idx + 1) doc evs with
      | .error m => .error m
      | .ok (rows, evs) => .ok (row :: rows, evs)

/-- `parametric.run_parametric`: build the test matrix with
`populate_test_dataframe`, then process every test case in table
order.  `timer` supplies the measured FEA runtime of each case (the
ambient `time.process_time` differences).  The returned pair is the
final results table and the trace of adapter calls. -/
def run_parametric (model : FreecadModel) (vars : List Variable)
    (outputs : List Output) (dry_run export_results : Bool)
    (output_folder : String) (timer : Nat → Nat) :
    Except String (List Row × List Event) :=
  let table := populate_test_dataframe vars outputs
  run_rows model vars outputs dry_run export_results output_folder
    table.length timer table 0 [] []

/-- A file write performed by `save_fea_results`. -/
inductive SaveAction where
  | writeCsv (filename : String) (table : List Row)
  | writeJson (filename : String) (table : List Row)
  | writePickle (filename : String) (table : List Row)
deriving DecidableEq

/-- `parametric.save_fea_results` (lines 303-326): dispatch on the
mode string, performing exactly one write for the three supported
modes and raising `NotImplementedError` (with no write) otherwise. -/
def save_fea_results (table : List Row) (results_filename mode : String) :
    Except String (List SaveAction) :=
  if mode = "csv" then .ok [SaveAction.writeCsv results_filename table]
  else if mode = "json" then .ok [SaveAction.writeJson results_filename table]
  else if mode = "pickle" then .ok [SaveAction.writePickle results_filename table]
  else .error ("Export mode " ++ mode ++ " not yet implemented")

/-- The adapter-call events of the variable loop for one row. -/
def change_events (vars : List Variable) (row : Row) : List Event :=
  vars.map (fun q => Event.change q.object_name q.constraint_name
    (getCol row.params (param_to_df_heading q)))

/-- The document state after the variable loop of one row, when every
`change_parameter` call succeeds. -/
def apply_changes_doc (vars : List Variable) (row : Row) (doc : DocState) : DocState :=
  vars.foldl
    (fun d q => setParamState d q.object_name q.constraint_name
      (getCol row.params (param_to_df_heading q)))
    doc

theorem run_rows_length_ok (model : FreecadModel) (vars : List Variable)
    (outs : List Output) (dry ex : Bool) (folder : String) (rc : Nat)
    (timer : Nat → Nat) :
    ∀ (rows : List Row) (idx : Nat) (doc : DocState) (evs : List Event)
      (tbl : List Row) (evs' : List Event),
      run_rows model vars outs dry ex folder rc timer rows idx doc evs = .ok (tbl, evs') →
      tbl.length = rows.length := by
  intro rows
  induction rows with
  | nil =>
    intro idx doc evs tbl evs' h
    simp only [run_rows, Except.ok.injEq, Prod.mk.injEq] at h
    simp [← h.1]
  | cons row rest ih =>
    intro idx doc evs tbl evs' h
    rw [run_rows] at h
    cases hcase : run_case model vars outs dry ex folder rc timer idx doc row evs with
    | error m => rw [hcase] at h; exact absurd h (by simp)
    | ok triple =>
      obtain ⟨doc1, row1, evs1⟩ := triple
      rw [hcase] at h
      dsimp only at h
      cases hrec : run_rows model vars outs dry ex folder rc timer rest (idx + 1) doc1 evs1 with
      | error m => rw [hrec] at h; exact absurd h (by simp)
      | ok pair =>
        obtain ⟨rows1, evs2⟩ := pair
        rw [hrec] at h
        simp only [Except.ok.injEq, Prod.mk.injEq] at h
        have := ih (idx + 1) doc1 evs1 rows1 evs2 hrec
        simp [← h.1, this]

/-- C1 (claim as frozen, tested at the empty declaration list): with
zero variables the empty product is `1` but `populate_test_dataframe`
builds a table with zero rows, so the claimed row-count formula fails
there. -/
theorem C1_counterexample :
    ¬ ((populate_test_dataframe [] []).length
        = (([] : List Variable).map (fun v => v.constraint_values.length)).prod) := by
  decide

/-- C1 (amended: nonempty variable list): the table built by
`populate_test_dataframe` has exactly `n1 * n2 * … * nk` rows, the
product of the lengths of the declared variables' `constraint_values`;
and any table returned by a completed `run_parametric` over the same
declarations has that same row count. -/
theorem C1_row_count (vars : List Variable) (outs : List Output)
    (h : vars ≠ []) :
    (populate_test_dataframe vars outs).length
        = (vars.map (fun v => v.constraint_values.length)).prod
      ∧ ∀ (model : FreecadModel) (dry ex : Bool) (folder : String)
          (timer : Nat → Nat) (tbl : List Row) (evs : List Event),
          run_parametric model vars outs dry ex folder timer = .ok (tbl, evs) →
          tbl.length = (vars.map (fun v => v.constraint_values.length)).prod := by
  have hlen : (populate_test_dataframe vars outs).length
      = (vars.map (fun v => v.constraint_values.length)).prod := by
    unfold populate_test_dataframe
    rw [List.length_map, meshgridRavel_length _ (by simpa using h), List.map_map]
    rfl
  refine ⟨hlen, ?_⟩
  intro model dry ex folder timer tbl evs hrun
  unfold run_parametric at hrun
  have := run_rows_length_ok model vars outs dry ex folder
    (populate_test_dataframe vars outs).length timer
    (populate_test_dataframe vars outs) 0 [] [] tbl evs hrun
  rw [this, hlen]

/-- Witness for C1_row_count: two variables with 2 and 3 values give a
6-row table. -/
theorem C1_row_count_witness :
    ([⟨"Sketch", "HoleDiam", [10, 20]⟩, ⟨"Box", "Height", [1, 2, 3]⟩]
        : List Variable) ≠ []
      ∧ (populate_test_dataframe
          [⟨"Sketch", "HoleDiam", [10, 20]⟩, ⟨"Box", "Height", [1, 2, 3]⟩] []).length
        = (([⟨"Sketch", "HoleDiam", [10, 20]⟩, ⟨"Box", "Height", [1, 2, 3]⟩]
            : List Variable).map (fun v => v.constraint_values.length)).prod :=
  ⟨by decide,
   (C1_row_count ([⟨"Sketch", "HoleDiam", [10, 20]⟩, ⟨"Box", "Height", [1, 2, 3]⟩]
      : List Variable) [] (by decide)).1⟩

/-- C10: with zero declared variables `run_parametric` returns a
zero-row table, the case loop runs no iterations and no adapter
operation (parameter change, solve or export) is invoked: the event
trace is empty. -/
theorem C10_no_variables (model : FreecadModel) (outs : List Output)
    (dry ex : Bool) (folder : String) (timer : Nat → Nat) :
    run_parametric model [] outs dry ex folder timer = .ok ([], []) := rfl

/-- C6: a variable's column is named `{object_name}.{constraint_name}`;
an output's column is `{label}({output_var})` with `label` the
`column_label` when present and the reduction function's canonical
name otherwise; in particular `column_label="95th percentile"` with
`output_var="vonMises"` gives `"95th percentile(vonMises)"`, and no
label with canonical name `amax` gives `"amax(vonMises)"`. -/
theorem C6_column_naming :
    (∀ p : Variable,
        param_to_df_heading p = p.object_name ++ "." ++ p.constraint_name)
      ∧ (∀ (o : Output) (l : String), o.column_label = some l →
          output_to_df_heading o = l ++ "(" ++ o.output_var ++ ")")
      ∧ (∀ o : Output, o.column_label = none →
          output_to_df_heading o = o.reduction_qualname ++ "(" ++ o.output_var ++ ")")
      ∧ output_to_df_heading
          ⟨"vonMises", np_amax, "test_custom_outputs.<locals>.<lambda>",
            some "95th percentile"⟩ = "95th percentile(vonMises)"
      ∧ output_to_df_heading ⟨"vonMises", np_amax, "amax", none⟩ = "amax(vonMises)" :=
  ⟨fun _ => rfl,
   fun o l hl => by simp [output_to_df_heading, hl],
   fun o hl => by simp [output_to_df_heading, hl],
   rfl, rfl⟩

/-- Witness for C6_column_naming: the labelled and unlabelled rules at
concrete outputs. -/
theorem C6_column_naming_witness :
    output_to_df_heading ⟨"vonMises", np_amax, "q", some "median"⟩
        = "median(vonMises)"
      ∧ output_to_df_heading ⟨"DisplacementLengths", np_amax, "amax", none⟩
        = "amax(DisplacementLengths)" :=
  ⟨C6_column_naming.2.1 ⟨"vonMises", np_amax, "q", some "median"⟩ "median" rfl,
   C6_column_naming.2.2.1 ⟨"DisplacementLengths", np_amax, "amax", none⟩ rfl⟩

/-- C8: `save_fea_results` performs exactly one write for each of the
three supported modes (`csv`, `json`, `pickle`) and for any other mode
raises `NotImplementedError` naming the unsupported mode, with no
write performed. -/
theorem C8_save_modes (table : List Row) (fname mode : String) :
    (mode = "csv" →
        save_fea_results table fname mode = .ok [SaveAction.writeCsv fname table])
      ∧ (mode = "json" →
        save_fea_results table fname mode = .ok [SaveAction.writeJson fname table])
      ∧ (mode = "pickle" →
        save_fea_results table fname mode = .ok [SaveAction.writePickle fname table])
      ∧ (mode ≠ "csv" → mode ≠ "json" → mode ≠ "pickle" →
        save_fea_results table fname mode
          = .error ("Export mode " ++ mode ++ " not yet implemented")) :=
  ⟨fun h => by simp [save_fea_results, h],
   fun h => by simp [save_fea_results, h],
   fun h => by simp [save_fea_results, h],
   fun h1 h2 h3 => by simp [save_fea_results, h1, h2, h3]⟩

/-- Witness for C8_save_modes: the `csv` mode writes, the `toml` mode
errors naming the mode. -/
theorem C8_save_modes_witness :
    save_fea_results [] "out.csv" "csv" = .ok [SaveAction.writeCsv "out.csv" []]
      ∧ save_fea_results [] "out.toml" "toml"
        = .error ("Export mode " ++ "toml" ++ " not yet implemented") :=
  ⟨(C8_save_modes [] "out.csv" "csv").1 rfl,
   (C8_save_modes [] "out.toml" "toml").2.2.2 (by decide) (by decide) (by decide)⟩

theorem apply_variables_all_ok (model : FreecadModel) (vars : List Variable) :
    ∀ (doc : DocState) (row : Row) (evs : List Event),
      (∀ q ∈ vars, model.change_parameter q.object_name q.constraint_name
          (getCol row.params (param_to_df_heading q)) = ChangeResult.ok) →
      apply_variables model vars doc row evs
        = .ok (apply_changes_doc vars row doc, row, evs ++ change_events vars row) := by
  induction vars with
  | nil => intro doc row evs _; simp [apply_variables, apply_changes_doc, change_events]
  | cons p ps ih =>
    intro doc row evs h
    have hp := h p (by simp)
    rw [apply_variables, hp,
      ih _ row _ (fun q hq => h q (List.mem_cons_of_mem _ hq))]
    simp [apply_changes_doc, change_events]

theorem apply_variables_fields (model : FreecadModel) (vars : List Variable) :
    ∀ (doc : DocState) (row : Row) (evs : List Event) (doc' : DocState)
      (row' : Row) (evs' : List Event),
      apply_variables model vars doc row evs = .ok (doc', row', evs') →
      row'.params = row.params ∧ row'.outputs = row.outputs
        ∧ row'.runtime = row.runtime := by
  induction vars with
  | nil =>
    intro doc row evs doc' row' evs' h
    simp only [apply_variables, Except.ok.injEq, Prod.mk.injEq] at h
    rw [← h.2.1]
    exact ⟨rfl, rfl, rfl⟩
  | cons p ps ih =>
    intro doc row evs doc' row' evs' h
    rw [apply_variables] at h
    cases hcp : model.change_parameter p.object_name p.constraint_name
        (getCol row.params (param_to_df_heading p)) with
    | ok =>
      rw [hcp] at h
      dsimp only at h
      exact ih _ _ _ _ _ _ h
    | valueError m =>
      rw [hcp] at h
      dsimp only at h
      exact ih _ { row with msg := m } _ _ _ _ h
    | fatal m =>
      rw [hcp] at h
      dsimp only at h
      exact absurd h (by simp)

theorem placeholder_outputs_zero (outs : List Output) :
    ∀ p ∈ placeholder_outputs outs, p.2 = 0 := by
  unfold placeholder_outputs
  generalize outs.map output_to_df_heading = hs
  have : ∀ (hs : List String) (cols : List (String × Value)),
      (∀ p ∈ cols, p.2 = 0) →
      ∀ p ∈ hs.foldl (fun c h => setCol c h 0) cols, p.2 = 0 := by
    intro hs
    induction hs with
    | nil => intro cols hc; simpa using hc
    | cons k ks ih =>
      intro cols hc
      simp only [List.foldl_cons]
      refine ih _ ?_
      intro p hp
      unfold setCol at hp
      split at hp
      · obtain ⟨q, hq, hpq⟩ := List.mem_map.mp hp
        by_cases hk : q.1 = k
        · simp [hk] at hpq; simp [← hpq]
        · simp [hk] at hpq; exact hpq ▸ hc q hq
      · rcases List.mem_append.mp hp with h1 | h1
        · exact hc p h1
        · simp at h1; simp [h1]
  exact this hs [] (by simp)

theorem populate_row_fields (vars : List Variable) (outs : List Output) :
    ∀ row ∈ populate_test_dataframe vars outs,
      row.msg = "" ∧ row.runtime = 0 ∧ row.outputs = placeholder_outputs outs := by
  intro row hr
  unfold populate_test_dataframe at hr
  obtain ⟨vs, _, rfl⟩ := List.mem_map.mp hr
  exact ⟨rfl, rfl, rfl⟩

theorem run_rows_dry_run (model : FreecadModel) (vars : List Variable)
    (outs : List Output) (ex : Bool) (folder : String) (rc : Nat)
    (timer : Nat → Nat)
    (hc : ∀ o c v, model.change_parameter o c v = ChangeResult.ok) :
    ∀ (rows : List Row) (idx : Nat) (doc : DocState) (evs : List Event),
      run_rows model vars outs true ex folder rc timer rows idx doc evs
        = .ok (rows, evs ++ rows.flatMap (fun r => change_events vars r)) := by
  intro rows
  induction rows with
  | nil => intro idx doc evs; simp [run_rows]
  | cons row rest ih =>
    intro idx doc evs
    rw [run_rows, run_case, apply_variables_all_ok model vars doc row evs
      (fun q _ => hc _ _ _)]
    simp only [if_pos rfl, ih]
    simp

/-- C5 (claim as frozen, refuted): a dry run does NOT leave every
row's `Msg` empty — a `ValueError` raised by `change_parameter` is
recorded into `Msg` even when `dry_run=True` (the catch at lines
167-170 of `parametric.py` sits outside the `if not dry_run` block). -/
theorem C5_counterexample :
    ¬ (∀ (model : FreecadModel) (vars : List Variable) (outs : List Output)
        (ex : Bool) (folder : String) (timer : Nat → Nat)
        (tbl : List Row) (evs : List Event),
        run_parametric model vars outs true ex folder timer = .ok (tbl, evs) →
        ∀ row ∈ tbl, row.msg = "") := by
  intro h
  have h2 := h ⟨"doc.FCStd", fun _ _ _ => .valueError "bad value",
      fun _ => .runtimeError "no results"⟩
    [⟨"A", "x", [1]⟩] [] false "" (fun _ => 0)
    [{ params := [("A.x", 1)], outputs := [], msg := "bad value", runtime := 0 }]
    [Event.change "A" "x" 1] rfl
    { params := [("A.x", 1)], outputs := [], msg := "bad value", runtime := 0 }
    (by simp)
  exact absurd h2 (by decide)

/-- C5 (amended: provided every parameter application succeeds):
`run_parametric` with `dry_run=True` returns exactly the freshly
populated table — correct row count, every output column at the
placeholder `0`, `FEA_Runtime` `0` and `Msg` empty in every row — and
the event trace contains only parameter changes: no solve (and no
export) is attempted. -/
theorem C5_dry_run (model : FreecadModel) (vars : List Variable)
    (outs : List Output) (ex : Bool) (folder : String) (timer : Nat → Nat)
    (hc : ∀ o c v, model.change_parameter o c v = ChangeResult.ok) :
    ∃ evs, run_parametric model vars outs true ex folder timer
        = .ok (populate_test_dataframe vars outs, evs)
      ∧ (∀ e ∈ evs, ∃ o c v, e = Event.change o c v)
      ∧ (∀ row ∈ populate_test_dataframe vars outs,
          row.msg = "" ∧ row.runtime = 0 ∧ ∀ p ∈ row.outputs, p.2 = 0) := by
  refine ⟨(populate_test_dataframe vars outs).flatMap (fun r => change_events vars r),
    ?_, ?_, ?_⟩
  · unfold run_parametric
    rw [run_rows_dry_run model vars outs ex folder _ timer hc]
    simp
  · intro e he
    obtain ⟨r, _, hre⟩ := List.mem_flatMap.mp he
    obtain ⟨q, _, rfl⟩ := List.mem_map.mp hre
    exact ⟨_, _, _, rfl⟩
  · intro row hrow
    obtain ⟨h1, h2, h3⟩ := populate_row_fields vars outs row hrow
    exact ⟨h1, h2, fun p hp => placeholder_outputs_zero outs p (h3 ▸ hp)⟩

/-- Witness for C5_dry_run: a model whose parameter changes always
succeed, one variable with two values. -/
theorem C5_dry_run_witness :
    (∀ o c v, (FreecadModel.mk "d.FCStd" (fun _ _ _ => ChangeResult.ok)
        (fun _ => SolveOutcome.runtimeError "no")).change_parameter o c v
          = ChangeResult.ok)
      ∧ ∃ evs, run_parametric
          (FreecadModel.mk "d.FCStd" (fun _ _ _ => ChangeResult.ok)
            (fun _ => SolveOutcome.runtimeError "no"))
          [⟨"A", "x", [1, 2]⟩] [] true false "" (fun _ => 0)
          = .ok (populate_test_dataframe [⟨"A", "x", [1, 2]⟩] [], evs)
        ∧ (∀ e ∈ evs, ∃ o c v, e = Event.change o c v)
        ∧ (∀ row ∈ populate_test_dataframe [⟨"A", "x", [1, 2]⟩] [],
            row.msg = "" ∧ row.runtime = 0 ∧ ∀ p ∈ row.outputs, p.2 = 0) :=
  ⟨fun _ _ _ => rfl,
   C5_dry_run (FreecadModel.mk "d.FCStd" (fun _ _ _ => ChangeResult.ok)
      (fun _ => SolveOutcome.runtimeError "no"))
    [⟨"A", "x", [1, 2]⟩] [] false "" (fun _ => 0) (fun _ _ _ => rfl)⟩

theorem run_case_outputs_shape (model : FreecadModel) (vars : List Variable)
    (outs : List Output) (ex : Bool) (folder : String) (rc : Nat)
    (timer : Nat → Nat) (idx : Nat) (doc : DocState) (row : Row)
    (evs : List Event) (doc' : DocState) (row' : Row) (evs' : List Event)
    (hm : ∀ d m, model.run_fea d = SolveOutcome.runtimeError m → m ≠ "")
    (hrow : row.outputs = placeholder_outputs outs)
    (h : run_case model vars outs false ex folder rc timer idx doc row evs
      = .ok (doc', row', evs')) :
    (∃ r : ResultsObj, row'.outputs = apply_outputs outs r)
      ∨ (row'.outputs = placeholder_outputs outs ∧ row'.msg ≠ "") := by
  rw [run_case] at h
  cases hav : apply_variables model vars doc row evs with
  | error m => rw [hav] at h; exact absurd h (by simp)
  | ok triple =>
    obtain ⟨d2, row2, e2⟩ := triple
    rw [hav] at h
    dsimp only at h
    rw [if_neg (by simp)] at h
    have hout2 : row2.outputs = placeholder_outputs outs :=
      (apply_variables_fields model vars doc row evs d2 row2 e2 hav).2.1.trans hrow
    cases hfea : model.run_fea d2 with
    | ok results =>
      rw [hfea] at h
      dsimp only at h
      split at h
      all_goals
        simp only [Except.ok.injEq, Prod.mk.injEq] at h
        left
        refine ⟨results, ?_⟩
        rw [← h.2.1]
        show write_outputs _ results row2.outputs = apply_outputs outs results
        rw [hout2, apply_outputs]
    | runtimeError m =>
      rw [hfea] at h
      dsimp only at h
      simp only [Except.ok.injEq, Prod.mk.injEq] at h
      right
      rw [← h.2.1]
      exact ⟨hout2, hm _ _ hfea⟩
    | fatal m => rw [hfea] at h; exact absurd h (by simp)

theorem run_rows_outputs_shape (model : FreecadModel) (vars : List Variable)
    (outs : List Output) (ex : Bool) (folder : String) (rc : Nat)
    (timer : Nat → Nat)
    (hm : ∀ d m, model.run_fea d = SolveOutcome.runtimeError m → m ≠ "") :
    ∀ (rows : List Row) (idx : Nat) (doc : DocState) (evs : List Event)
      (tbl : List Row) (evs' : List Event),
      (∀ row ∈ rows, row.outputs = placeholder_outputs outs) →
      run_rows model vars outs false ex folder rc timer rows idx doc evs
        = .ok (tbl, evs') →
      ∀ row' ∈ tbl,
        (∃ r : ResultsObj, row'.outputs = apply_outputs outs r)
          ∨ (row'.outputs = placeholder_outputs outs ∧ row'.msg ≠ "") := by
  intro rows
  induction rows with
  | nil =>
    intro idx doc evs tbl evs' _ h
    simp only [run_rows, Except.ok.injEq, Prod.mk.injEq] at h
    rw [← h.1]
    simp
  | cons row rest ih =>
    intro idx doc evs tbl evs' hph h
    rw [run_rows] at h
    cases hcase : run_case model vars outs false ex folder rc timer idx doc row evs with
    | error m => rw [hcase] at h; exact absurd h (by simp)
    | ok triple =>
      obtain ⟨d1, r1, e1⟩ := triple
      rw [hcase] at h
      dsimp only at h
      cases hrec : run_rows model vars outs false ex folder rc timer rest (idx + 1) d1 e1 with
      | error m => rw [hrec] at h; exact absurd h (by simp)
      | ok pair =>
        obtain ⟨rows1, evs2⟩ := pair
        rw [hrec] at h
        simp only [Except.ok.injEq, Prod.mk.injEq] at h
        intro row' hrow'
        rw [← h.1] at hrow'
        rcases List.mem_cons.mp hrow' with h1 | h1
        · subst h1
          exact run_case_outputs_shape model vars outs ex folder rc timer idx doc
            row evs d1 row' e1 hm (hph row (by simp)) hcase
        · exact ih (idx + 1) d1 e1 rows1 evs2
            (fun q hq => hph q (List.mem_cons_of_mem _ hq)) hrec row' h1

/-- C2 (claim as frozen, refuted): a row need not fall in one of the
two claimed cases.  If `change_parameter` raises a `ValueError` for a
row but the (stale-geometry) solve still succeeds, the outputs are
fully populated while `Msg` is nonempty, so neither "populated and
`Msg` empty" nor "placeholder and `Msg` nonempty" holds. -/
theorem C2_counterexample :
    ¬ (∀ (model : FreecadModel) (vars : List Variable) (outs : List Output)
        (ex : Bool) (folder : String) (timer : Nat → Nat)
        (tbl : List Row) (evs : List Event),
        run_parametric model vars outs false ex folder timer = .ok (tbl, evs) →
        ∀ row ∈ tbl, row.msg = "" ∨ ∀ p ∈ row.outputs, p.2 = (0 : Value)) := by
  intro h
  have h2 := h ⟨"doc.FCStd", fun _ _ _ => .valueError "bad",
      fun _ => .ok ⟨fun _ => [5]⟩⟩
    [⟨"A", "x", [1]⟩] [⟨"vonMises", np_amax, "amax", none⟩] false "" (fun _ => 0)
    [{ params := [("A.x", 1)], outputs := [("amax(vonMises)", 5)],
       msg := "bad", runtime := 0 }]
    [Event.change "A" "x" 1, Event.solve] rfl
    { params := [("A.x", 1)], outputs := [("amax(vonMises)", 5)],
      msg := "bad", runtime := 0 }
    (by simp)
  rcases h2 with h2 | h2
  · exact absurd h2 (by decide)
  · exact absurd (h2 ("amax(vonMises)", 5) (by simp)) (by decide)

/-- C2 (amended): after a non-dry `run_parametric` completes, outputs
are all-or-nothing in every row: either all declared output columns
carry the results of one full write pass of reduced results (`Msg` may
be empty, or carry a parameter-application message when a
`ValueError` preceded a successful solve), or all output columns are
still at the placeholder `0` and `Msg` is nonempty.  In particular a
row with empty `Msg` is always fully populated, and no row is
half-updated.  (Requires the solver's recoverable failure messages to
be nonempty, as the source's `"FEA results are not present"` is.) -/
theorem C2_all_or_nothing (model : FreecadModel) (vars : List Variable)
    (outs : List Output) (ex : Bool) (folder : String) (timer : Nat → Nat)
    (tbl : List Row) (evs : List Event)
    (hm : ∀ d m, model.run_fea d = SolveOutcome.runtimeError m → m ≠ "")
    (h : run_parametric model vars outs false ex folder timer = .ok (tbl, evs)) :
    ∀ row ∈ tbl,
      (∃ r : ResultsObj, row.outputs = apply_outputs outs r)
        ∨ (row.outputs = placeholder_outputs outs
            ∧ (∀ p ∈ row.outputs, p.2 = 0) ∧ row.msg ≠ "") := by
  intro row hrow
  have := run_rows_outputs_shape model vars outs ex folder
    (populate_test_dataframe vars outs).length timer hm
    (populate_test_dataframe vars outs) 0 [] [] tbl evs
    (fun q hq => (populate_row_fields vars outs q hq).2.2) h row hrow
  rcases this with h1 | h1
  · exact Or.inl h1
  · exact Or.inr ⟨h1.1, fun p hp => placeholder_outputs_zero outs p (h1.1 ▸ hp),
      h1.2⟩

/-- Witness for C2_all_or_nothing: a sweep whose single case fails
with the recoverable solver error. -/
theorem C2_all_or_nothing_witness :
    (∀ d m, (FreecadModel.mk "d.FCStd" (fun _ _ _ => ChangeResult.ok)
        (fun _ => SolveOutcome.runtimeError "FEA results are not present")).run_fea d
          = SolveOutcome.runtimeError m → m ≠ "")
      ∧ ∀ row ∈ ([⟨[("A.x", 1)], [("amax(vonMises)", 0)],
            "FEA results are not present", 0⟩] : List Row),
          (∃ r : ResultsObj,
              row.outputs = apply_outputs [⟨"vonMises", np_amax, "amax", none⟩] r)
            ∨ (row.outputs = placeholder_outputs [⟨"vonMises", np_amax, "amax", none⟩]
                ∧ (∀ p ∈ row.outputs, p.2 = 0) ∧ row.msg ≠ "") :=
  ⟨fun d m hm => by injection hm with h1; subst h1; decide,
   C2_all_or_nothing
    (FreecadModel.mk "d.FCStd" (fun _ _ _ => ChangeResult.ok)
      (fun _ => SolveOutcome.runtimeError "FEA results are not present"))
    [⟨"A", "x", [1]⟩] [⟨"vonMises", np_amax, "amax", none⟩] false "" (fun _ => 0)
    [{ params := [("A.x", 1)], outputs := [("amax(vonMises)", 0)],
       msg := "FEA results are not present", runtime := 0 }]
    [Event.change "A" "x" 1, Event.solve]
    (fun d m hm => by injection hm with h1; subst h1; decide) rfl⟩

/-- The document state after the variable loops of a list of rows
have all succeeded, in order. -/
def docs_fold (vars : List Variable) (rows : List Row) (doc : DocState) : DocState :=
  rows.foldl (fun d r => apply_changes_doc vars r d) doc

theorem run_case_ok_eq (model : FreecadModel) (vars : List Variable)
    (outs : List Output) (ex : Bool) (folder : String) (rc : Nat)
    (timer : Nat → Nat) (idx : Nat) (doc : DocState) (row : Row)
    (evs : List Event) (r : ResultsObj)
    (hc : ∀ q ∈ vars, model.change_parameter q.object_name q.constraint_name
        (getCol row.params (param_to_df_heading q)) = ChangeResult.ok)
    (hfea : model.run_fea (apply_changes_doc vars row doc) = SolveOutcome.ok r) :
    run_case model vars outs false ex folder rc timer idx doc row evs
      = .ok (apply_changes_doc vars row doc,
          { row with
              outputs := write_outputs
                (if outs.isEmpty then default_outputs else outs) r row.outputs,
              runtime := timer idx },
          ((evs ++ change_events vars row) ++ [Event.solve])
            ++ (if ex then
                  [Event.exportResult (export_filename model.filename folder rc idx)]
                else [])) := by
  rw [run_case, apply_variables_all_ok model vars doc row evs hc]
  simp only [Bool.false_eq_true, if_false, hfea]
  cases ex <;> simp

theorem run_case_rte_eq (model : FreecadModel) (vars : List Variable)
    (outs : List Output) (ex : Bool) (folder : String) (rc : Nat)
    (timer : Nat → Nat) (idx : Nat) (doc : DocState) (row : Row)
    (evs : List Event) (m : String)
    (hc : ∀ q ∈ vars, model.change_parameter q.object_name q.constraint_name
        (getCol row.params (param_to_df_heading q)) = ChangeResult.ok)
    (hfea : model.run_fea (apply_changes_doc vars row doc)
      = SolveOutcome.runtimeError m) :
    run_case model vars outs false ex folder rc timer idx doc row evs
      = .ok (apply_changes_doc vars row doc, { row with msg := m },
          (evs ++ change_events vars row) ++ [Event.solve]) := by
  rw [run_case, apply_variables_all_ok model vars doc row evs hc]
  simp only [Bool.false_eq_true, if_false, hfea]

theorem run_rows_solve_outcomes (model : FreecadModel) (vars : List Variable)
    (outs : List Output) (ex : Bool) (folder : String) (rc : Nat)
    (timer : Nat → Nat)
    (hc : ∀ o c v, model.change_parameter o c v = ChangeResult.ok)
    (hnf : ∀ d m, model.run_fea d ≠ SolveOutcome.fatal m) :
    ∀ (rows : List Row) (idx : Nat) (doc : DocState) (evs : List Event),
      (∀ row ∈ rows, row.msg = "" ∧ row.outputs = placeholder_outputs outs) →
      ∃ tbl evs',
        run_rows model vars outs false ex folder rc timer rows idx doc evs
            = .ok (tbl, evs')
        ∧ tbl.length = rows.length
        ∧ ∀ i (hi : i < tbl.length),
            (∀ m, model.run_fea (docs_fold vars (rows.take (i + 1)) doc)
                = SolveOutcome.runtimeError m →
              (tbl.get ⟨i, hi⟩).msg = m
                ∧ (tbl.get ⟨i, hi⟩).outputs = placeholder_outputs outs)
          ∧ (∀ r, model.run_fea (docs_fold vars (rows.take (i + 1)) doc)
                = SolveOutcome.ok r →
              (tbl.get ⟨i, hi⟩).msg = ""
                ∧ (tbl.get ⟨i, hi⟩).outputs = apply_outputs outs r) := by
  intro rows
  induction rows with
  | nil =>
    intro idx doc evs _
    exact ⟨[], evs, rfl, rfl, fun i hi => absurd hi (by simp)⟩
  | cons row rest ih =>
    intro idx doc evs hp
    have hrow := hp row (by simp)
    have hrest : ∀ q ∈ rest, q.msg = "" ∧ q.outputs = placeholder_outputs outs :=
      fun q hq => hp q (List.mem_cons_of_mem _ hq)
    cases hfea : model.run_fea (apply_changes_doc vars row doc) with
    | fatal m => exact absurd hfea (hnf _ _)
    | ok r =>
      obtain ⟨tbl1, evs1, hrun1, hlen1, hidx1⟩ :=
        ih (idx + 1) (apply_changes_doc vars row doc)
          (((evs ++ change_events vars row) ++ [Event.solve])
            ++ (if ex then
                  [Event.exportResult (export_filename model.filename folder rc idx)]
                else [])) hrest
      refine ⟨{ row with
          outputs := write_outputs
            (if outs.isEmpty then default_outputs else outs) r row.outputs,
          runtime := timer idx } :: tbl1, evs1, ?_, by simp [hlen1], ?_⟩
      · rw [run_rows, run_case_ok_eq model vars outs ex folder rc timer idx doc row
          evs r (fun q _ => hc _ _ _) hfea]
        simp only [hrun1]
      · intro i hi
        match i with
        | 0 =>
          constructor
          · intro m hm
            rw [show docs_fold vars ((row :: rest).take 1) doc
                = apply_changes_doc vars row doc from rfl, hfea] at hm
            exact absurd hm (by simp)
          · intro r' hr'
            rw [show docs_fold vars ((row :: rest).take 1) doc
                = apply_changes_doc vars row doc from rfl, hfea] at hr'
            have : r = r' := by injection hr'
            subst this
            refine ⟨hrow.1, ?_⟩
            show write_outputs _ r row.outputs = apply_outputs outs r
            rw [hrow.2, apply_outputs]
        | Nat.succ j =>
          have hj : j < tbl1.length := by
            have := hi; simp at this; omega
          have := hidx1 j hj
          constructor
          · intro m hm
            exact (this.1) m hm
          · intro r' hr'
            exact (this.2) r' hr'
    | runtimeError m0 =>
      obtain ⟨tbl1, evs1, hrun1, hlen1, hidx1⟩ :=
        ih (idx + 1) (apply_changes_doc vars row doc)
          ((evs ++ change_events vars row) ++ [Event.solve]) hrest
      refine ⟨{ row with msg := m0 } :: tbl1, evs1, ?_, by simp [hlen1], ?_⟩
      · rw [run_rows, run_case_rte_eq model vars outs ex folder rc timer idx doc row
          evs m0 (fun q _ => hc _ _ _) hfea]
        simp only [hrun1]
      · intro i hi
        match i with
        | 0 =>
          constructor
          · intro m hm
            rw [show docs_fold vars ((row :: rest).take 1) doc
                = apply_changes_doc vars row doc from rfl, hfea] at hm
            have : m0 = m := by injection hm
            subst this
            exact ⟨rfl, hrow.2⟩
          · intro r' hr'
            rw [show docs_fold vars ((row :: rest).take 1) doc
                = apply_changes_doc vars row doc from rfl, hfea] at hr'
            exact absurd hr' (by simp)
        | Nat.succ j =>
          have hj : j < tbl1.length := by
            have := hi; simp at this; omega
          have := hidx1 j hj
          exact ⟨this.1, this.2⟩

/-- C3: in a non-dry sweep whose parameter applications succeed and
whose solves fail only recoverably (`RuntimeError`), the sweep always
completes over all rows; a row whose solve reports a recoverable
failure gets that failure's message in `Msg` and keeps every output
column at the placeholder `0`, while a row whose solve succeeds is
unaffected: its `Msg` is empty and its outputs carry the reduced
results.  Row `i`'s solve runs against the document state reached by
applying the parameter values of rows `0..i` in order
(`docs_fold`). -/
theorem C3_solve_failure_isolation (model : FreecadModel) (vars : List Variable)
    (outs : List Output) (ex : Bool) (folder : String) (timer : Nat → Nat)
    (hc : ∀ o c v, model.change_parameter o c v = ChangeResult.ok)
    (hnf : ∀ d m, model.run_fea d ≠ SolveOutcome.fatal m) :
    ∃ tbl evs,
      run_parametric model vars outs false ex folder timer = .ok (tbl, evs)
      ∧ tbl.length = (populate_test_dataframe vars outs).length
      ∧ ∀ i (hi : i < tbl.length),
          (∀ m, model.run_fea
              (docs_fold vars ((populate_test_dataframe vars outs).take (i + 1)) [])
                = SolveOutcome.runtimeError m →
            (tbl.get ⟨i, hi⟩).msg = m
              ∧ (tbl.get ⟨i, hi⟩).outputs = placeholder_outputs outs
              ∧ ∀ p ∈ (tbl.get ⟨i, hi⟩).outputs, p.2 = 0)
        ∧ (∀ r, model.run_fea
              (docs_fold vars ((populate_test_dataframe vars outs).take (i + 1)) [])
                = SolveOutcome.ok r →
            (tbl.get ⟨i, hi⟩).msg = ""
              ∧ (tbl.get ⟨i, hi⟩).outputs = apply_outputs outs r) := by
  obtain ⟨tbl, evs, hrun, hlen, hidx⟩ :=
    run_rows_solve_outcomes model vars outs ex folder
      (populate_test_dataframe vars outs).length timer hc hnf
      (populate_test_dataframe vars outs) 0 [] []
      (fun q hq => ⟨(populate_row_fields vars outs q hq).1,
        (populate_row_fields vars outs q hq).2.2⟩)
  refine ⟨tbl, evs, hrun, hlen, ?_⟩
  intro i hi
  refine ⟨?_, (hidx i hi).2⟩
  intro m hm
  obtain ⟨h1, h2⟩ := (hidx i hi).1 m hm
  exact ⟨h1, h2, fun p hp => placeholder_outputs_zero outs p (h2 ▸ hp)⟩

/-- Adapter used to witness C3: all parameter changes succeed; the
solve reports the recoverable "results absent" error exactly when the
document has a parameter set to `1`. -/
def C3_witness_model : FreecadModel :=
  { filename := "d.FCStd"
    change_parameter := fun _ _ _ => ChangeResult.ok
    run_fea := fun d =>
      if d.any (fun p => p.2 = 1) then
        SolveOutcome.runtimeError "FEA results are not present"
      else SolveOutcome.ok ⟨fun _ => [7]⟩ }

/-- Witness for C3_solve_failure_isolation: a two-case sweep whose
first case solve-fails recoverably and whose second succeeds. -/
theorem C3_solve_failure_isolation_witness :
    (∀ o c v, C3_witness_model.change_parameter o c v = ChangeResult.ok)
      ∧ (∀ d m, C3_witness_model.run_fea d ≠ SolveOutcome.fatal m)
      ∧ ∃ tbl evs,
          run_parametric C3_witness_model [⟨"A", "x", [1, 2]⟩]
              [⟨"vonMises", np_amax, "amax", none⟩] false false "" (fun _ => 0)
            = .ok (tbl, evs)
          ∧ tbl.length = (populate_test_dataframe [⟨"A", "x", [1, 2]⟩]
              [⟨"vonMises", np_amax, "amax", none⟩]).length := by
  have hnf : ∀ d m, C3_witness_model.run_fea d ≠ SolveOutcome.fatal m := by
    intro d m
    unfold C3_witness_model
    dsimp only
    split <;> simp
  refine ⟨fun o c v => rfl, hnf, ?_⟩
  obtain ⟨tbl, evs, h1, h2, _⟩ :=
    C3_solve_failure_isolation C3_witness_model [⟨"A", "x", [1, 2]⟩]
      [⟨"vonMises", np_amax, "amax", none⟩] false "" (fun _ => 0)
      (fun o c v => rfl) hnf
  exact ⟨tbl, evs, h1, h2⟩

theorem run_rows_first_var_value_error (model : FreecadModel) (p : Variable)
    (ps : List Variable) (outs : List Output) (ex : Bool) (folder : String)
    (rc : Nat) (timer : Nat → Nat) (m : String)
    (hp : ∀ v, model.change_parameter p.object_name p.constraint_name v
      = ChangeResult.valueError m)
    (hps : ∀ q ∈ ps, ∀ v, model.change_parameter q.object_name q.constraint_name v
      = ChangeResult.ok) :
    ∀ (rows : List Row) (idx : Nat) (doc : DocState) (evs : List Event),
      run_rows model (p :: ps) outs true ex folder rc timer rows idx doc evs
        = .ok (rows.map (fun r => { r with msg := m }),
            evs ++ rows.flatMap (fun r => change_events (p :: ps) r)) := by
  intro rows
  induction rows with
  | nil => intro idx doc evs; simp [run_rows]
  | cons row rest ih =>
    intro idx doc evs
    rw [run_rows, run_case, apply_variables]
    simp only [hp]
    rw [apply_variables_all_ok model ps doc { row with msg := m } _
      (fun q hq => hps q hq _)]
    simp only [if_pos rfl, ih]
    simp [change_events]

/-- C4: (a) if applying the first variable's value fails with a
recoverable `ValueError` in every row while the other variables'
applications succeed, `run_parametric` records the error message into
each affected row's `Msg` and still applies all of the row's remaining
variables (their `change_parameter` calls appear in the trace), and
the sweep completes over all rows; (b) an error outside the
`ValueError` class raised by a `change_parameter` call is not caught
there and propagates out of `run_parametric`. -/
theorem C4_change_parameter_errors (model : FreecadModel) (p : Variable)
    (ps : List Variable) (outs : List Output) (ex : Bool) (folder : String)
    (timer : Nat → Nat) (m : String) :
    ((∀ v, model.change_parameter p.object_name p.constraint_name v
        = ChangeResult.valueError m) →
     (∀ q ∈ ps, ∀ v, model.change_parameter q.object_name q.constraint_name v
        = ChangeResult.ok) →
     ∃ tbl evs,
       run_parametric model (p :: ps) outs true ex folder timer = .ok (tbl, evs)
       ∧ tbl.length = (populate_test_dataframe (p :: ps) outs).length
       ∧ (∀ row ∈ tbl, row.msg = m)
       ∧ (∀ row ∈ populate_test_dataframe (p :: ps) outs, ∀ q ∈ p :: ps,
           Event.change q.object_name q.constraint_name
             (getCol row.params (param_to_df_heading q)) ∈ evs))
    ∧
    ((∀ v, model.change_parameter p.object_name p.constraint_name v
        = ChangeResult.fatal m) →
     populate_test_dataframe (p :: ps) outs ≠ [] →
     run_parametric model (p :: ps) outs true ex folder timer = Except.error m) := by
  constructor
  · intro hp hps
    refine ⟨(populate_test_dataframe (p :: ps) outs).map (fun r => { r with msg := m }),
      (populate_test_dataframe (p :: ps) outs).flatMap
        (fun r => change_events (p :: ps) r), ?_, by simp, ?_, ?_⟩
    · unfold run_parametric
      rw [run_rows_first_var_value_error model p ps outs ex folder _ timer m hp hps]
      simp
    · intro row hrow
      obtain ⟨r0, _, hr0⟩ := List.mem_map.mp hrow
      rw [← hr0]
    · intro row hrow q hq
      refine List.mem_flatMap.mpr ⟨row, hrow, ?_⟩
      exact List.mem_map.mpr ⟨q, hq, rfl⟩
  · intro hp hne
    unfold run_parametric
    cases hrows : populate_test_dataframe (p :: ps) outs with
    | nil => exact absurd hrows hne
    | cons r0 rest =>
      rw [run_rows, run_case, apply_variables]
      simp only [hp]

/-- Witness for C4_change_parameter_errors: part (a) at an adapter
whose changes on object `A` raise `ValueError` and succeed on `B`;
part (b) at an adapter whose changes raise `KeyError`. -/
theorem C4_change_parameter_errors_witness :
    (∃ tbl evs,
        run_parametric
            (FreecadModel.mk "d.FCStd"
              (fun o _ _ => if o = "A" then ChangeResult.valueError "nope"
                else ChangeResult.ok)
              (fun _ => SolveOutcome.runtimeError "no"))
            [⟨"A", "x", [1]⟩, ⟨"B", "y", [2]⟩] [] true false "" (fun _ => 0)
          = .ok (tbl, evs)
        ∧ tbl.length = (populate_test_dataframe
            ([⟨"A", "x", [1]⟩, ⟨"B", "y", [2]⟩] : List Variable) []).length
        ∧ (∀ row ∈ tbl, row.msg = "nope")
        ∧ (∀ row ∈ populate_test_dataframe
              ([⟨"A", "x", [1]⟩, ⟨"B", "y", [2]⟩] : List Variable) [],
            ∀ q ∈ ([⟨"A", "x", [1]⟩, ⟨"B", "y", [2]⟩] : List Variable),
            Event.change q.object_name q.constraint_name
              (getCol row.params (param_to_df_heading q)) ∈ evs))
      ∧ run_parametric
          (FreecadModel.mk "d.FCStd"
            (fun _ _ _ => ChangeResult.fatal "KeyError: missing")
            (fun _ => SolveOutcome.runtimeError "no"))
          [⟨"A", "x", [1]⟩] [] true false "" (fun _ => 0)
        = Except.error "KeyError: missing" :=
  ⟨(C4_change_parameter_errors
      (FreecadModel.mk "d.FCStd"
        (fun o _ _ => if o = "A" then ChangeResult.valueError "nope"
          else ChangeResult.ok)
        (fun _ => SolveOutcome.runtimeError "no"))
      ⟨"A", "x", [1]⟩ [⟨"B", "y", [2]⟩] [] false "" (fun _ => 0) "nope").1
    (fun v => rfl)
    (fun q hq v => by
      rcases List.mem_singleton.mp hq with rfl
      rfl),
   (C4_change_parameter_errors
      (FreecadModel.mk "d.FCStd"
        (fun _ _ _ => ChangeResult.fatal "KeyError: missing")
        (fun _ => SolveOutcome.runtimeError "no"))
      ⟨"A", "x", [1]⟩ [] [] false "" (fun _ => 0) "KeyError: missing").2
    (fun v => rfl) (by decide)⟩

theorem apply_variables_no_fatal (model : FreecadModel) (vars : List Variable)
    (hc : ∀ o c v m, model.change_parameter o c v ≠ ChangeResult.fatal m) :
    ∀ (doc : DocState) (row : Row) (evs : List Event), ∃ doc' row',
      apply_variables model vars doc row evs
        = .ok (doc', row', evs ++ change_events vars row)
      ∧ row'.params = row.params ∧ row'.outputs = row.outputs
      ∧ row'.runtime = row.runtime := by
  induction vars with
  | nil =>
    intro doc row evs
    exact ⟨doc, row, by simp [apply_variables, change_events], rfl, rfl, rfl⟩
  | cons p ps ih =>
    intro doc row evs
    cases hcp : model.change_parameter p.object_name p.constraint_name
        (getCol row.params (param_to_df_heading p)) with
    | ok =>
      obtain ⟨d', r', h1, h2, h3, h4⟩ :=
        ih (setParamState doc p.object_name p.constraint_name
            (getCol row.params (param_to_df_heading p))) row
          (evs ++ [Event.change p.object_name p.constraint_name
            (getCol row.params (param_to_df_heading p))])
      refine ⟨d', r', ?_, h2, h3, h4⟩
      rw [apply_variables]
      simp only [hcp]
      rw [h1]
      simp [change_events]
    | valueError m =>
      obtain ⟨d', r', h1, h2, h3, h4⟩ :=
        ih doc { row with msg := m }
          (evs ++ [Event.change p.object_name p.constraint_name
            (getCol row.params (param_to_df_heading p))])
      refine ⟨d', r', ?_, h2, h3, h4⟩
      rw [apply_variables]
      simp only [hcp]
      rw [h1]
      simp [change_events]
    | fatal m => exact absurd hcp (hc _ _ _ _)

/-- The export artifacts requested in a trace, in order. -/
def exportsOf (evs : List Event) : List String :=
  evs.filterMap (fun e => match e with
    | Event.exportResult f => some f
    | _ => none)

theorem exportsOf_append (a b : List Event) :
    exportsOf (a ++ b) = exportsOf a ++ exportsOf b :=
  List.filterMap_append a b _

theorem exportsOf_change_events (vars : List Variable) (row : Row) :
    exportsOf (change_events vars row) = [] := by
  refine List.filterMap_eq_nil_iff.mpr ?_
  intro e he
  obtain ⟨q, _, rfl⟩ := List.mem_map.mp he
  rfl

theorem exportsOf_nil : exportsOf [] = [] := rfl

theorem exportsOf_solve : exportsOf [Event.solve] = [] := rfl

theorem exportsOf_export (f : String) :
    exportsOf [Event.exportResult f] = [f] := rfl

theorem exportsOf_solve_export (f : String) :
    exportsOf [Event.solve, Event.exportResult f] = [f] := rfl

theorem ceil_log10_aux_eq_clog :
    ∀ (fuel m : Nat), m ≤ fuel + 1 → ceil_log10_aux fuel m = Nat.clog 10 m := by
  intro fuel
  induction fuel with
  | zero =>
    intro m hm
    interval_cases m <;> simp [ceil_log10_aux, Nat.clog_of_right_le_one]
  | succ f ih =>
    intro m hm
    rw [ceil_log10_aux]
    split
    · rw [Nat.clog_of_right_le_one (by omega)]
    · have h2 : 2 ≤ m := by omega
      rw [ih ((m + 9) / 10) (by omega), Nat.clog_of_two_le (by norm_num) h2]
      norm_num

/-- `num_digits_pad` is exactly `ceil(log10(rowCount + 1))`. -/
theorem num_digits_pad_eq_clog (rowCount : Nat) :
    num_digits_pad rowCount = Nat.clog 10 (rowCount + 1) :=
  ceil_log10_aux_eq_clog rowCount (rowCount + 1) (by omega)

theorem run_rows_exports (model : FreecadModel) (vars : List Variable)
    (outs : List Output) (folder : String) (rc : Nat) (timer : Nat → Nat)
    (hc : ∀ o c v m, model.change_parameter o c v ≠ ChangeResult.fatal m)
    (hs : ∀ d, ∃ r, model.run_fea d = SolveOutcome.ok r) :
    ∀ (rows : List Row) (idx : Nat) (doc : DocState) (evs : List Event),
      ∃ tbl evs',
        run_rows model vars outs false true folder rc timer rows idx doc evs
            = .ok (tbl, evs')
        ∧ tbl.length = rows.length
        ∧ exportsOf evs' = exportsOf evs
            ++ (List.range' idx rows.length).map
              (fun i => export_filename model.filename folder rc i) := by
  intro rows
  induction rows with
  | nil => intro idx doc evs; exact ⟨[], evs, rfl, rfl, by simp⟩
  | cons row rest ih =>
    intro idx doc evs
    obtain ⟨d2, row2, hav, hp2, ho2, hr2⟩ := apply_variables_no_fatal model vars hc doc row evs
    obtain ⟨r, hfea⟩ := hs d2
    have hcase : run_case model vars outs false true folder rc timer idx doc row evs
        = .ok (d2,
            { row2 with
                outputs := write_outputs
                  (if outs.isEmpty then default_outputs else outs) r row2.outputs,
                runtime := timer idx },
            ((evs ++ change_events vars row) ++ [Event.solve])
              ++ [Event.exportResult (export_filename model.filename folder rc idx)]) := by
      rw [run_case, hav]
      simp only [Bool.false_eq_true, if_false, hfea]
      simp
    obtain ⟨tbl1, evs1, hrun1, hlen1, hexp1⟩ :=
      ih (idx + 1) d2
        (((evs ++ change_events vars row) ++ [Event.solve])
          ++ [Event.exportResult (export_filename model.filename folder rc idx)])
    refine ⟨{ row2 with
        outputs := write_outputs
          (if outs.isEmpty then default_outputs else outs) r row2.outputs,
        runtime := timer idx } :: tbl1, evs1, ?_, by simp [hlen1], ?_⟩
    · rw [run_rows, hcase]
      simp only [hrun1]
    · rw [hexp1, List.length_cons, List.range'_succ]
      simp [exportsOf_append, exportsOf_change_events, exportsOf_solve,
        exportsOf_export, exportsOf_solve_export]

/-- C7: in a sweep over `N` test cases with `export_results=True`, no
non-recoverable parameter error, and every solve succeeding, exactly
`N` export artifacts are requested, the `i`-th named from the source
document's base name and the row index `i` zero-padded to
`num_digits_pad N` digits; and that padding width is exactly
`ceil(log10(N+1))` (`Nat.clog 10 (N+1)`), which is at least `1` for
every `N ≥ 1`. -/
theorem C7_export_per_case (model : FreecadModel) (vars : List Variable)
    (outs : List Output) (folder : String) (timer : Nat → Nat)
    (hc : ∀ o c v m, model.change_parameter o c v ≠ ChangeResult.fatal m)
    (hs : ∀ d, ∃ r, model.run_fea d = SolveOutcome.ok r) :
    ∃ tbl evs,
      run_parametric model vars outs false true folder timer = .ok (tbl, evs)
      ∧ tbl.length = (populate_test_dataframe vars outs).length
      ∧ (exportsOf evs).length = tbl.length
      ∧ exportsOf evs = (List.range tbl.length).map
          (fun i => export_filename model.filename folder tbl.length i)
      ∧ (∀ N, 1 ≤ N →
          num_digits_pad N = Nat.clog 10 (N + 1) ∧ 1 ≤ num_digits_pad N) := by
  obtain ⟨tbl, evs, hrun, hlen, hexp⟩ :=
    run_rows_exports model vars outs folder
      (populate_test_dataframe vars outs).length timer hc hs
      (populate_test_dataframe vars outs) 0 [] []
  have hlen' : tbl.length = (populate_test_dataframe vars outs).length := hlen
  refine ⟨tbl, evs, hrun, hlen', ?_, ?_, ?_⟩
  · rw [hexp]
    simp [exportsOf_nil, hlen']
  · rw [hexp, hlen', List.range_eq_range']
    simp [exportsOf_nil]
  · intro N hN
    refine ⟨num_digits_pad_eq_clog N, ?_⟩
    rw [num_digits_pad_eq_clog]
    exact Nat.clog_pos (by norm_num) (by omega)

/-- Witness for C7_export_per_case: two cases, all changes and solves
succeed, two export artifacts requested. -/
theorem C7_export_per_case_witness :
    (∀ o c v m, (FreecadModel.mk "shell_test.FCStd"
        (fun _ _ _ => ChangeResult.ok)
        (fun _ => SolveOutcome.ok ⟨fun _ => [7]⟩)).change_parameter o c v
          ≠ ChangeResult.fatal m)
      ∧ (∀ d, ∃ r, (FreecadModel.mk "shell_test.FCStd"
          (fun _ _ _ => ChangeResult.ok)
          (fun _ => SolveOutcome.ok ⟨fun _ => [7]⟩)).run_fea d = SolveOutcome.ok r)
      ∧ ∃ tbl evs,
          run_parametric
              (FreecadModel.mk "shell_test.FCStd"
                (fun _ _ _ => ChangeResult.ok)
                (fun _ => SolveOutcome.ok ⟨fun _ => [7]⟩))
              [⟨"A", "x", [1, 2]⟩] [] false true "out" (fun _ => 0)
            = .ok (tbl, evs)
          ∧ (exportsOf evs).length = tbl.length
          ∧ exportsOf evs = (List.range tbl.length).map
              (fun i => export_filename "shell_test.FCStd" "out" tbl.length i) := by
  refine ⟨fun o c v m h => ChangeResult.noConfusion h,
    fun d => ⟨⟨fun _ => [7]⟩, rfl⟩, ?_⟩
  obtain ⟨tbl, evs, h1, _, h3, h4, _⟩ :=
    C7_export_per_case
      (FreecadModel.mk "shell_test.FCStd"
        (fun _ _ _ => ChangeResult.ok)
        (fun _ => SolveOutcome.ok ⟨fun _ => [7]⟩))
      [⟨"A", "x", [1, 2]⟩] [] "out" (fun _ => 0)
      (fun o c v m h => ChangeResult.noConfusion h)
      (fun d => ⟨⟨fun _ => [7]⟩, rfl⟩)
  exact ⟨tbl, evs, h1, h3, h4⟩

/-- Erase the `FEA_Runtime` column of a row (used to compare tables
up to timing). -/
def scrub_runtime (r : Row) : Row := { r with runtime := 0 }

theorem run_case_timer_scrub (model : FreecadModel) (vars : List Variable)
    (outs : List Output) (dry ex : Bool) (folder : String) (rc : Nat)
    (timer1 timer2 : Nat → Nat) (idx : Nat) (doc : DocState) (row : Row)
    (evs : List Event) :
    (run_case model vars outs dry ex folder rc timer1 idx doc row evs).map
        (fun t => (t.1, scrub_runtime t.2.1, t.2.2))
      = (run_case model vars outs dry ex folder rc timer2 idx doc row evs).map
        (fun t => (t.1, scrub_runtime t.2.1, t.2.2)) := by
  unfold run_case
  split
  · rfl
  · rename_i dd rr ee hh
    cases dry with
    | true => rfl
    | false =>
      cases hfea : model.run_fea dd with
      | ok r => cases ex <;> rfl
      | runtimeError m => rfl
      | fatal m => rfl

theorem run_rows_timer_scrub (model : FreecadModel) (vars : List Variable)
    (outs : List Output) (dry ex : Bool) (folder : String) (rc : Nat)
    (timer1 timer2 : Nat → Nat) :
    ∀ (rows : List Row) (idx : Nat) (doc : DocState) (evs : List Event),
      (run_rows model vars outs dry ex folder rc timer1 rows idx doc evs).map
          (fun p => (p.1.map scrub_runtime, p.2))
        = (run_rows model vars outs dry ex folder rc timer2 rows idx doc evs).map
          (fun p => (p.1.map scrub_runtime, p.2)) := by
  intro rows
  induction rows with
  | nil => intro idx doc evs; rfl
  | cons row rest ih =>
    intro idx doc evs
    have hcase := run_case_timer_scrub model vars outs dry ex folder rc
      timer1 timer2 idx doc row evs
    rw [run_rows, run_rows]
    cases h1 : run_case model vars outs dry ex folder rc timer1 idx doc row evs with
    | error m =>
      cases h2 : run_case model vars outs dry ex folder rc timer2 idx doc row evs with
      | error m' =>
        rw [h1, h2] at hcase
        dsimp only [Except.map] at hcase
        simp only [Except.error.injEq] at hcase
        subst hcase
        simp only [h1, h2]
      | ok t2 =>
        rw [h1, h2] at hcase
        dsimp only [Except.map] at hcase
        exact absurd hcase (by simp)
    | ok t1 =>
      obtain ⟨d1, r1, e1⟩ := t1
      cases h2 : run_case model vars outs dry ex folder rc timer2 idx doc row evs with
      | error m =>
        rw [h1, h2] at hcase
        dsimp only [Except.map] at hcase
        exact absurd hcase (by simp)
      | ok t2 =>
        obtain ⟨d2, r2, e2⟩ := t2
        rw [h1, h2] at hcase
        dsimp only [Except.map] at hcase
        simp only [Except.ok.injEq, Prod.mk.injEq] at hcase
        obtain ⟨hd, hs, he⟩ := hcase
        subst hd
        subst he
        simp only [h1, h2]
        have ihx := ih (idx + 1) d1 e1
        cases h3 : run_rows model vars outs dry ex folder rc timer1 rest (idx + 1) d1 e1 with
        | error m3 =>
          cases h4 : run_rows model vars outs dry ex folder rc timer2 rest (idx + 1) d1 e1 with
          | error m4 =>
            rw [h3, h4] at ihx
            dsimp only [Except.map] at ihx
            simp only [Except.error.injEq] at ihx
            subst ihx
            simp
          | ok p4 =>
            rw [h3, h4] at ihx
            dsimp only [Except.map] at ihx
            exact absurd ihx (by simp)
        | ok p3 =>
          obtain ⟨rows3, evs3⟩ := p3
          cases h4 : run_rows model vars outs dry ex folder rc timer2 rest (idx + 1) d1 e1 with
          | error m4 =>
            rw [h3, h4] at ihx
            dsimp only [Except.map] at ihx
            exact absurd ihx (by simp)
          | ok p4 =>
            obtain ⟨rows4, evs4⟩ := p4
            rw [h3, h4] at ihx
            dsimp only [Except.map] at ihx
            simp only [Except.ok.injEq, Prod.mk.injEq] at ihx
            simp [Except.map, ihx.1, ihx.2, hs]

/-- C9: the sweep is deterministic up to timing: two invocations of
`run_parametric` with identical variable and output declarations
against the same adapter (which therefore returns identical results
for identical inputs), differing only in the ambient
`time.process_time` readings, produce identical outcomes — the same
result table once the `FEA_Runtime` column is erased, and the same
adapter-call trace. -/
theorem C9_deterministic_mod_runtime (model : FreecadModel) (vars : List Variable)
    (outs : List Output) (dry ex : Bool) (folder : String)
    (timer1 timer2 : Nat → Nat) :
    (run_parametric model vars outs dry ex folder timer1).map
        (fun p => (p.1.map scrub_runtime, p.2))
      = (run_parametric model vars outs dry ex folder timer2).map
        (fun p => (p.1.map scrub_runtime, p.2)) := by
  unfold run_parametric
  exact run_rows_timer_scrub model vars outs dry ex folder
    (populate_test_dataframe vars outs).length timer1 timer2
    (populate_test_dataframe vars outs) 0 [] []

end FreecadParametricFEA
